import Mathlib

/-!
Verification of the Realtime Collaborative Playlist Manager.

The client component `frontend/components/Playlist.jsx` (drag-and-drop
reordering with optimistic local state, revert on failure, derived totals)
is embedded directly from its source.  The position allocator
(`frontend/lib/position.js`), the server-side playlist store and the
websocket reconnection client are not part of the available sources; they
are modelled from the specification, as marked on each definition.
-/

namespace RCPM

/-! ## Position allocator -/

/-- Failure of the position allocator: the key space between the two
neighbors has no room left for a strictly intermediate key. -/
inductive AllocError where
  | positionExhausted
deriving Repr, DecidableEq

/-- Modelled from the spec: the fixed mid-range default key returned for an
insertion into an empty list (`frontend/lib/position.js` is not in the
available sources).  The spec fixes no concrete value; the key space is a
scaled-integer space as recommended by the spec's design notes. -/
def defaultKey : Nat := 1024

/-- Modelled from the spec: the gap used when appending after the last
entry ("return a key strictly greater than prev"). -/
def appendStep : Nat := 1024

/-- Modelled from the spec: `allocate(prev, next)` of the PositionAllocator
(`frontend/lib/position.js`, not in the available sources).
Both neighbors absent: the fixed mid-range default.  Only `next` present:
halve the distance to the lower bound `0`.  Only `prev` present: a key
strictly greater than `prev`.  Both present: the arithmetic midpoint
`(prev+next)/2`, failing with `PositionExhausted` when the gap between the
neighbors leaves no strictly intermediate key (the scaled-integer analogue
of `next - prev` underflowing to zero). -/
def calculatePosition : Option Nat → Option Nat → Except AllocError Nat
  | none, none => .ok defaultKey
  | none, some next => .ok (next / 2)
  | some prev, none => .ok (prev + appendStep)
  | some prev, some next =>
    if prev + 2 ≤ next then .ok ((prev + next) / 2)
    else .error .positionExhausted

/-- Repeated insertion at the same left neighbor: each successful
allocation between `prev` and `next` makes the returned key the new right
neighbor and inserts again.  Returns `true` as soon as the allocator
reports `PositionExhausted`, `false` if the fuel runs out first. -/
def insertLoop (prev : Nat) : Nat → Nat → Bool
  | _, 0 => false
  | next, fuel + 1 =>
    match calculatePosition (some prev) (some next) with
    | .error _ => true
    | .ok k => insertLoop prev k fuel

/-! ## Playlist store (server side) -/

/-- A playlist entry, after `PlaylistTrack` of the Prisma schema
(`backend/prisma/migrations/20251103051617_init/migration.sql`). -/
structure Entry where
  id : Nat
  trackId : Nat
  position : Nat
  votes : Int
  addedBy : String
  isPlaying : Bool
  addedAt : Nat
  playedAt : Option Nat
deriving Repr, DecidableEq

/-- The authoritative playlist state: the entries plus the id supply for
newly created entries. -/
structure PlaylistState where
  entries : List Entry
  nextId : Nat
deriving Repr, DecidableEq

/-- Request-level failures of the playlist store, after the spec's error
taxonomy. -/
inductive StoreError where
  | notFound
  | duplicateTrack
  | positionExhausted
deriving Repr, DecidableEq

/-- Direction of a vote. -/
inductive VoteDirection where
  | up
  | down
deriving Repr, DecidableEq

/-- The entry with the given id, if present. -/
def findEntry (s : PlaylistState) (entryId : Nat) : Option Entry :=
  s.entries.find? (fun e => e.id == entryId)

/-- The ordering key of the current last entry (the greatest key), if the
playlist is nonempty. -/
def lastPosition (s : PlaylistState) : Option Nat :=
  (s.entries.map Entry.position).max?

/-- Modelled from the spec: `add(trackId, addedByLabel)` of the
PlaylistStore (the backend route handlers are not in the available
sources; the storage layer backstop is the unique index
`PlaylistTrack_trackId_key` of the migration).  Fails with
`DuplicateTrack` when the track is already referenced by some entry;
otherwise allocates a key after the current last entry and appends a fresh
entry. -/
def add (s : PlaylistState) (trackId : Nat) (addedBy : String) (now : Nat) :
    Except StoreError (PlaylistState × Entry) :=
  if ∃ e ∈ s.entries, e.trackId = trackId then
    .error .duplicateTrack
  else
    match calculatePosition (lastPosition s) none with
    | .error _ => .error .positionExhausted
    | .ok k =>
      let e : Entry :=
        { id := s.nextId, trackId := trackId, position := k, votes := 0,
          addedBy := addedBy, isPlaying := false, addedAt := now,
          playedAt := none }
      .ok ({ entries := s.entries ++ [e], nextId := s.nextId + 1 }, e)

/-- Modelled from the spec: `vote(entryId, direction)` increments or
decrements the tally by exactly 1, failing with `NotFound` when the entry
is absent. -/
def voteUpdate (entryId : Nat) (dir : VoteDirection) (e : Entry) : Entry :=
  if e.id = entryId then
    { e with votes := e.votes + (match dir with | .up => 1 | .down => -1) }
  else e

def vote (s : PlaylistState) (entryId : Nat) (dir : VoteDirection) :
    Except StoreError PlaylistState :=
  if ∃ e ∈ s.entries, e.id = entryId then
    .ok { s with entries := s.entries.map (voteUpdate entryId dir) }
  else .error .notFound

/-- Modelled from the spec: `setPlaying(entryId)` fails with `NotFound`
when absent; when the target is already playing it is a no-op returning
the unchanged state (no timestamp change); otherwise it atomically clears
is-playing on every other entry and sets it on the target with a fresh
played-at timestamp. -/
def setPlayingUpdate (entryId : Nat) (now : Nat) (e2 : Entry) : Entry :=
  if e2.id = entryId then
    { e2 with isPlaying := true, playedAt := some now }
  else
    { e2 with isPlaying := false }

def setPlaying (s : PlaylistState) (entryId : Nat) (now : Nat) :
    Except StoreError PlaylistState :=
  match findEntry s entryId with
  | none => .error .notFound
  | some e =>
    if e.isPlaying then .ok s
    else .ok { s with entries := s.entries.map (setPlayingUpdate entryId now) }

/-- Modelled from the spec: `remove(entryId)` fails with `NotFound` when
absent; otherwise it deletes the entry and touches nothing else. -/
def remove (s : PlaylistState) (entryId : Nat) : Except StoreError PlaylistState :=
  if ∃ e ∈ s.entries, e.id = entryId then
    .ok { s with entries := s.entries.filter (fun e => !(e.id == entryId)) }
  else .error .notFound

/-- Insert an entry into a list sorted by ascending ordering key, keeping
it sorted. -/
def insertSorted (e : Entry) : List Entry → List Entry
  | [] => [e]
  | x :: xs =>
    if e.position ≤ x.position then e :: x :: xs
    else x :: insertSorted e xs

/-- The entries in display order: ascending ordering key (the spec's
`snapshot()`). -/
def sortByPosition (l : List Entry) : List Entry :=
  l.foldr insertSorted []

/-- Reassign evenly spaced keys `(i+1) * appendStep` in list order. -/
def assignPositions (i : Nat) : List Entry → List Entry
  | [] => []
  | e :: es => { e with position := (i + 1) * appendStep } :: assignPositions (i + 1) es

/-- Modelled from the spec: a full rebalance reassigns every entry a
fresh, evenly spaced key in current display order. -/
def rebalance (s : PlaylistState) : PlaylistState :=
  { s with entries := assignPositions 0 (sortByPosition s.entries) }

/-- The ordering key of an optional reference neighbor: `NotFound` when a
referenced neighbor does not exist. -/
def neighborPosition (s : PlaylistState) : Option Nat → Except StoreError (Option Nat)
  | none => .ok none
  | some nid =>
    match findEntry s nid with
    | none => .error .notFound
    | some e => .ok (some e.position)

def positionUpdate (entryId : Nat) (k : Nat) (e : Entry) : Entry :=
  if e.id = entryId then { e with position := k } else e

/-- Overwrite the ordering key of the entry with the given id. -/
def setPosition (s : PlaylistState) (entryId : Nat) (k : Nat) : PlaylistState :=
  { s with entries := s.entries.map (positionUpdate entryId k) }

/-- Modelled from the spec: `reorder(entryId, newPrevId, newNextId)` fails
with `NotFound` when the entry or a referenced neighbor is absent;
recomputes the entry's key via the PositionAllocator; on
`PositionExhausted` performs a full rebalance and retries once. -/
def reorder (s : PlaylistState) (entryId : Nat) (newPrevId newNextId : Option Nat) :
    Except StoreError PlaylistState :=
  if (findEntry s entryId).isSome then
    match neighborPosition s newPrevId, neighborPosition s newNextId with
    | .ok pk, .ok nk =>
      match calculatePosition pk nk with
      | .ok k => .ok (setPosition s entryId k)
      | .error _ =>
        match neighborPosition (rebalance s) newPrevId,
            neighborPosition (rebalance s) newNextId with
        | .ok pk2, .ok nk2 =>
          match calculatePosition pk2 nk2 with
          | .ok k => .ok (setPosition (rebalance s) entryId k)
          | .error _ => .error .positionExhausted
        | _, _ => .error .notFound
    | _, _ => .error .notFound
  else .error .notFound

/-- One mutation of the playlist store. -/
inductive StoreOp where
  | add (trackId : Nat) (addedBy : String) (now : Nat)
  | reorder (entryId : Nat) (newPrevId newNextId : Option Nat)
  | vote (entryId : Nat) (dir : VoteDirection)
  | setPlaying (entryId : Nat) (now : Nat)
  | remove (entryId : Nat)

/-- Apply one mutation; a failed mutation leaves the state unchanged. -/
def applyOp (s : PlaylistState) : StoreOp → PlaylistState
  | .add tid lbl now =>
    match add s tid lbl now with
    | .ok (s', _) => s'
    | .error _ => s
  | .reorder eid p n =>
    match reorder s eid p n with
    | .ok s' => s'
    | .error _ => s
  | .vote eid d =>
    match vote s eid d with
    | .ok s' => s'
    | .error _ => s
  | .setPlaying eid now =>
    match setPlaying s eid now with
    | .ok s' => s'
    | .error _ => s
  | .remove eid =>
    match remove s eid with
    | .ok s' => s'
    | .error _ => s

/-- Apply a sequence of mutations in order. -/
def applyOps (s : PlaylistState) (ops : List StoreOp) : PlaylistState :=
  ops.foldl applyOp s

/-- How many entries are flagged as playing. -/
def playingCount (s : PlaylistState) : Nat :=
  s.entries.countP (fun e => e.isPlaying)

/-- The spec's invariant: exactly 0 or 1 entries have is-playing = true. -/
def atMostOnePlaying (s : PlaylistState) : Prop :=
  playingCount s ≤ 1

/-- Entry ids are pairwise distinct. -/
def idsNodup (s : PlaylistState) : Prop :=
  (s.entries.map Entry.id).Nodup

/-- The id supply is fresh: every existing id is below `nextId`. -/
def idsBounded (s : PlaylistState) : Prop :=
  ∀ e ∈ s.entries, e.id < s.nextId

/-- Well-formedness of a playlist state. -/
def WF (s : PlaylistState) : Prop :=
  idsNodup s ∧ idsBounded s

/-! ## Client component (`frontend/components/Playlist.jsx`) -/

/-- Track metadata as read by the component (`item.track`). -/
structure Track where
  title : String
  artist : String
  album : Option String
  duration_seconds : Nat
deriving Repr, DecidableEq

/-- A playlist item as held in the component's `localPlaylist` state. -/
structure Item where
  id : Nat
  position : Nat
  votes : Int
  added_by : String
  is_playing : Bool
  track : Track
deriving Repr, DecidableEq

/-- One endpoint of a drag (`source` / `destination` of the drag result). -/
structure DragLocation where
  index : Nat
deriving Repr, DecidableEq

/-- The result object delivered to `onDragEnd`; a drag cancelled outside
any droppable has no destination. -/
structure DragEndResult where
  source : DragLocation
  destination : Option DragLocation
deriving Repr, DecidableEq

/-- The two `splice` calls of `onDragEnd`: remove the item at `src`, then
insert it at `dst` (`Playlist.jsx` lines 65-67).  Indices are in bounds in
every drag the library delivers; an out-of-bounds `src` leaves the list
unchanged. -/
def moveItem (l : List Item) (src dst : Nat) : List Item :=
  match l[src]? with
  | none => l
  | some it => (l.eraseIdx src).insertIdx dst it

/-- The `prevItem?.position || null` coercion of `Playlist.jsx` lines
77-78: an absent neighbor gives `null`, and a present neighbor whose
position is the falsy number `0` also gives `null`. -/
def positionOrNull : Option Nat → Option Nat
  | none => none
  | some p => if p = 0 then none else some p

/-- What one run of the `onDragEnd` handler leaves behind: the final
`localPlaylist` component state, the update request sent to the server
(entry id and new position), and whether `onUpdate` was invoked. -/
structure DragOutcome where
  localPlaylist : List Item
  request : Option (Nat × Except AllocError Nat)
  updated : Bool
deriving Repr

/-- The `onDragEnd` handler (`Playlist.jsx` lines 54-94) as a function of
the server-confirmed `playlist` prop, the current `localPlaylist` state,
the drag result, and whether the `playlistApi.update` request fails.
No destination, or a destination index equal to the source index, returns
immediately.  Otherwise the moved list is installed optimistically, the
new position is computed from the coerced neighbor positions, and on
request failure the local state is reverted to the `playlist` prop. -/
def onDragEnd (playlist localPlaylist : List Item) (result : DragEndResult)
    (requestFails : Bool) : DragOutcome :=
  match result.destination with
  | none => { localPlaylist := localPlaylist, request := none, updated := false }
  | some destination =>
    if result.source.index = destination.index then
      { localPlaylist := localPlaylist, request := none, updated := false }
    else
      let items := moveItem localPlaylist result.source.index destination.index
      let prevItem : Option Item :=
        if 0 < destination.index then items[destination.index - 1]? else none
      let nextItem : Option Item :=
        if destination.index < items.length - 1 then items[destination.index + 1]? else none
      let newPosition :=
        calculatePosition (positionOrNull (prevItem.map Item.position))
          (positionOrNull (nextItem.map Item.position))
      let reorderedId :=
        match localPlaylist[result.source.index]? with
        | some it => it.id
        | none => 0
      if requestFails then
        { localPlaylist := playlist, request := some (reorderedId, newPosition),
          updated := true }
      else
        { localPlaylist := items, request := some (reorderedId, newPosition),
          updated := true }

/-- The derived total duration (`Playlist.jsx` line 96): a `reduce` over
the current `localPlaylist`, recomputed on every render. -/
def totalDuration (l : List Item) : Nat :=
  l.foldl (fun sum item => sum + item.track.duration_seconds) 0

/-- The derived track count (`Playlist.jsx` line 104):
`localPlaylist.length`. -/
def displayedTrackCount (l : List Item) : Nat :=
  l.length

/-! ## Reconnection state machine -/

/-- Connection states.  `failed` is the terminal reported failure after
the retry budget is exhausted; `closed` is a deliberate client-initiated
close. -/
inductive ConnState where
  | disconnected
  | connecting
  | connected
  | failed
  | closed
deriving Repr, DecidableEq

/-- Modelled from the spec: the client's ReconnectionStateMachine
(`frontend/lib/websocket.js` is not in the available sources; the testing
guide documents exponential backoff with a maximum of 10 attempts). -/
structure ReconnectionStateMachine where
  state : ConnState
  attempts : Nat
  maxAttempts : Nat
deriving Repr, DecidableEq

/-- Events driving the reconnection state machine. -/
inductive ConnEvent where
  | opened
  | attemptFailed
  | unexpectedDrop
  | deliberateClose
deriving Repr, DecidableEq

/-- A transition outcome: the next machine and whether this transition
schedules a new automatic connection attempt. -/
structure StepResult where
  machine : ReconnectionStateMachine
  schedulesAttempt : Bool
deriving Repr, DecidableEq

/-- Modelled from the spec: the transition function of the
ReconnectionStateMachine.  Entry to `Connected` resets the retry counter;
a failed attempt either schedules the next backoff attempt or, once the
maximum attempt count is reached, moves to the terminal `failed` state;
an unexpected drop from `Connected` schedules a reconnection attempt; a
deliberate client-initiated close moves to `closed` and never schedules
an attempt. -/
def rsmStep (m : ReconnectionStateMachine) : ConnEvent → StepResult
  | .deliberateClose => { machine := { m with state := .closed }, schedulesAttempt := false }
  | .opened =>
    match m.state with
    | .connecting =>
      { machine := { m with state := .connected, attempts := 0 }, schedulesAttempt := false }
    | _ => { machine := m, schedulesAttempt := false }
  | .attemptFailed =>
    match m.state with
    | .connecting =>
      if m.maxAttempts ≤ m.attempts + 1 then
        { machine := { m with state := .failed, attempts := m.attempts + 1 },
          schedulesAttempt := false }
      else
        { machine := { m with state := .connecting, attempts := m.attempts + 1 },
          schedulesAttempt := true }
    | _ => { machine := m, schedulesAttempt := false }
  | .unexpectedDrop =>
    match m.state with
    | .connected =>
      { machine := { m with state := .connecting }, schedulesAttempt := true }
    | _ => { machine := m, schedulesAttempt := false }

/-- Run `n` consecutive failed connection attempts. -/
def rsmRunFails (m : ReconnectionStateMachine) : Nat → ReconnectionStateMachine
  | 0 => m
  | n + 1 => rsmRunFails (rsmStep m .attemptFailed).machine n

/-! ## Concrete fixtures for witnesses and counterexample scenarios -/

/-- A fixture track. -/
def sampleTrack : Track :=
  { title := "t", artist := "a", album := none, duration_seconds := 120 }

/-- A fixture item whose ordering key is the falsy number `0`. -/
def itemA : Item :=
  { id := 1, position := 0, votes := 0, added_by := "u", is_playing := false,
    track := sampleTrack }

/-- A fixture item with ordering key `1`. -/
def itemB : Item :=
  { id := 2, position := 1, votes := 0, added_by := "u", is_playing := false,
    track := sampleTrack }

/-- A fixture item with ordering key `8`. -/
def itemC : Item :=
  { id := 3, position := 8, votes := 0, added_by := "u", is_playing := false,
    track := sampleTrack }

/-- A fixture playlist entry. -/
def entryP : Entry :=
  { id := 1, trackId := 7, position := 1024, votes := 0, addedBy := "u",
    isPlaying := false, addedAt := 0, playedAt := none }

/-- A second fixture playlist entry. -/
def entryQ : Entry :=
  { id := 2, trackId := 8, position := 2048, votes := 0, addedBy := "v",
    isPlaying := false, addedAt := 1, playedAt := none }

/-- A fixture store state holding the two fixture entries. -/
def sampleState : PlaylistState :=
  { entries := [entryP, entryQ], nextId := 3 }

/-- The fixture state after `setPlaying 1` at time 5. -/
def samplePlaying1 : PlaylistState :=
  { entries := [{ entryP with isPlaying := true, playedAt := some 5 }, entryQ],
    nextId := 3 }

/-- The fixture state after `setPlaying 1` at time 5 and then
`setPlaying 2` at time 6. -/
def samplePlaying2 : PlaylistState :=
  { entries := [{ entryP with playedAt := some 5 },
                { entryQ with isPlaying := true, playedAt := some 6 }],
    nextId := 3 }

/-! ## Helper lemmas -/

theorem calculatePosition_none_ok (x : Option Nat) :
    ∃ k, calculatePosition x none = .ok k := by
  cases x <;> exact ⟨_, rfl⟩

theorem countP_fn_le_one {α : Type} (f : α → Nat) (l : List α)
    (h : (l.map f).Nodup) (y : Nat) :
    l.countP (fun e => f e == y) ≤ 1 := by
  induction l with
  | nil => simp
  | cons x xs ih =>
    rw [List.map_cons, List.nodup_cons] at h
    rw [List.countP_cons]
    by_cases hxy : (f x == y) = true
    · have h0 : xs.countP (fun e => f e == y) = 0 := by
        rw [List.countP_eq_zero]
        intro a ha hpa
        apply h.1
        have hax : f a = f x := by
          have h1 : f a = y := by simpa using hpa
          have h2 : f x = y := by simpa using hxy
          rw [h1, h2]
        rw [← hax]
        exact List.mem_map_of_mem f ha
      simp [hxy, h0]
    · simp only [hxy, if_false]
      simpa using ih h.2

theorem countP_add_countP_not {α : Type} (p : α → Bool) (l : List α) :
    l.countP p + l.countP (fun a => !(p a)) = l.length := by
  induction l with
  | nil => rfl
  | cons x xs ih =>
    by_cases hx : p x = true <;> simp [List.countP_cons, hx] <;> omega

theorem countP_map_eq {α β : Type} (f : α → β) (p : β → Bool) (l : List α) :
    (l.map f).countP p = l.countP (fun a => p (f a)) := by
  induction l with
  | nil => rfl
  | cons x xs ih => simp [List.countP_cons, ih]

theorem two_le_countP_of_two_mem {α : Type} (p : α → Bool) (l : List α)
    (a b : α) (ha : a ∈ l) (hb : b ∈ l) (hab : a ≠ b)
    (hpa : p a = true) (hpb : p b = true) : 2 ≤ l.countP p := by
  induction l with
  | nil => cases ha
  | cons x xs ih =>
    rw [List.countP_cons]
    rcases List.mem_cons.mp ha with rfl | ha'
    · rcases List.mem_cons.mp hb with rfl | hb'
      · exact absurd rfl hab
      · have hpos : 0 < xs.countP p := List.countP_pos_iff.mpr ⟨b, hb', hpb⟩
        simp only [hpa, if_true]
        omega
    · rcases List.mem_cons.mp hb with rfl | hb'
      · have hpos : 0 < xs.countP p := List.countP_pos_iff.mpr ⟨a, ha', hpa⟩
        simp only [hpb, if_true]
        omega
      · have := ih ha' hb'
        by_cases hx : p x = true <;> simp only [hx, if_true, if_false] <;> omega

theorem insertSorted_perm (e : Entry) (l : List Entry) :
    (insertSorted e l).Perm (e :: l) := by
  induction l with
  | nil => exact List.Perm.refl _
  | cons x xs ih =>
    unfold insertSorted
    by_cases hc : e.position ≤ x.position
    · rw [if_pos hc]
    · rw [if_neg hc]
      exact (ih.cons x).trans (List.Perm.swap e x xs)

theorem sortByPosition_perm (l : List Entry) : (sortByPosition l).Perm l := by
  induction l with
  | nil => exact List.Perm.refl _
  | cons x xs ih =>
    have h1 : sortByPosition (x :: xs) = insertSorted x (sortByPosition xs) := rfl
    rw [h1]
    exact (insertSorted_perm x (sortByPosition xs)).trans (ih.cons x)

theorem assignPositions_map_id (l : List Entry) : ∀ i : Nat,
    (assignPositions i l).map Entry.id = l.map Entry.id := by
  induction l with
  | nil => intro i; rfl
  | cons x xs ih => intro i; simp [assignPositions, ih]

theorem assignPositions_countP (l : List Entry) : ∀ i : Nat,
    (assignPositions i l).countP (fun e => e.isPlaying)
      = l.countP (fun e => e.isPlaying) := by
  induction l with
  | nil => intro i; rfl
  | cons x xs ih => intro i; simp [assignPositions, List.countP_cons, ih]

theorem map_map_id_eq (f : Entry → Entry) (hf : ∀ e, (f e).id = e.id)
    (l : List Entry) : (l.map f).map Entry.id = l.map Entry.id := by
  rw [List.map_map]
  exact List.map_congr_left (fun a _ => hf a)

theorem mapEntries_WF (s : PlaylistState) (f : Entry → Entry)
    (hf : ∀ e, (f e).id = e.id) (h : WF s) :
    WF { s with entries := s.entries.map f } := by
  obtain ⟨hnd, hbd⟩ := h
  constructor
  · show ((s.entries.map f).map Entry.id).Nodup
    rw [map_map_id_eq f hf]
    exact hnd
  · intro e he
    rw [List.mem_map] at he
    obtain ⟨a, ha, rfl⟩ := he
    show (f a).id < s.nextId
    rw [hf]
    exact hbd a ha

theorem mapEntries_playing (s : PlaylistState) (f : Entry → Entry)
    (hf : ∀ e, (f e).isPlaying = e.isPlaying) (h : atMostOnePlaying s) :
    atMostOnePlaying { s with entries := s.entries.map f } := by
  simp only [atMostOnePlaying, playingCount] at h ⊢
  rw [countP_map_eq]
  rw [List.countP_congr (fun a _ => by rw [hf a])]
  exact h

theorem positionUpdate_id (entryId k : Nat) (e : Entry) :
    (positionUpdate entryId k e).id = e.id := by
  by_cases h : e.id = entryId <;> simp [positionUpdate, h]

theorem positionUpdate_playing (entryId k : Nat) (e : Entry) :
    (positionUpdate entryId k e).isPlaying = e.isPlaying := by
  by_cases h : e.id = entryId <;> simp [positionUpdate, h]

theorem voteUpdate_id (entryId : Nat) (dir : VoteDirection) (e : Entry) :
    (voteUpdate entryId dir e).id = e.id := by
  by_cases h : e.id = entryId <;> simp [voteUpdate, h]

theorem voteUpdate_playing (entryId : Nat) (dir : VoteDirection) (e : Entry) :
    (voteUpdate entryId dir e).isPlaying = e.isPlaying := by
  by_cases h : e.id = entryId <;> simp [voteUpdate, h]

theorem setPlayingUpdate_id (entryId now : Nat) (e : Entry) :
    (setPlayingUpdate entryId now e).id = e.id := by
  by_cases h : e.id = entryId <;> simp [setPlayingUpdate, h]

theorem setPlayingUpdate_playing (entryId now : Nat) (e : Entry) :
    (setPlayingUpdate entryId now e).isPlaying = (e.id == entryId) := by
  by_cases h : e.id = entryId <;> simp [setPlayingUpdate, h]

theorem rebalance_ids_perm (s : PlaylistState) :
    ((rebalance s).entries.map Entry.id).Perm (s.entries.map Entry.id) := by
  show ((assignPositions 0 (sortByPosition s.entries)).map Entry.id).Perm _
  rw [assignPositions_map_id]
  exact (sortByPosition_perm s.entries).map Entry.id

theorem rebalance_WF (s : PlaylistState) (h : WF s) : WF (rebalance s) := by
  obtain ⟨hnd, hbd⟩ := h
  constructor
  · exact ((rebalance_ids_perm s).nodup_iff).mpr hnd
  · intro e he
    have h1 : e.id ∈ (rebalance s).entries.map Entry.id := List.mem_map_of_mem _ he
    have h2 : e.id ∈ s.entries.map Entry.id := ((rebalance_ids_perm s).mem_iff).mp h1
    rw [List.mem_map] at h2
    obtain ⟨e0, he0, hid⟩ := h2
    show e.id < s.nextId
    rw [← hid]
    exact hbd e0 he0

theorem rebalance_playing (s : PlaylistState) (h : atMostOnePlaying s) :
    atMostOnePlaying (rebalance s) := by
  simp only [atMostOnePlaying, playingCount] at h ⊢
  show (assignPositions 0 (sortByPosition s.entries)).countP _ ≤ 1
  rw [assignPositions_countP, (sortByPosition_perm s.entries).countP_eq]
  exact h

theorem setPosition_preserves (s : PlaylistState) (entryId k : Nat)
    (hwf : WF s) (hinv : atMostOnePlaying s) :
    WF (setPosition s entryId k) ∧ atMostOnePlaying (setPosition s entryId k) :=
  ⟨mapEntries_WF s _ (positionUpdate_id entryId k) hwf,
   mapEntries_playing s _ (positionUpdate_playing entryId k) hinv⟩

theorem reorder_ok_form (s s' : PlaylistState) (entryId : Nat)
    (newPrevId newNextId : Option Nat)
    (hr : reorder s entryId newPrevId newNextId = .ok s') :
    (∃ k, s' = setPosition s entryId k) ∨
    (∃ k, s' = setPosition (rebalance s) entryId k) := by
  unfold reorder at hr
  split at hr
  · split at hr
    · split at hr
      · exact Or.inl ⟨_, (Except.ok.inj hr).symm⟩
      · split at hr
        · split at hr
          · exact Or.inr ⟨_, (Except.ok.inj hr).symm⟩
          · exact absurd hr (by simp)
        · exact absurd hr (by simp)
    · exact absurd hr (by simp)
  · exact absurd hr (by simp)

theorem setPlaying_ok_form (s s' : PlaylistState) (entryId now : Nat)
    (hr : setPlaying s entryId now = .ok s') :
    s' = s ∨ s' = { s with entries := s.entries.map (setPlayingUpdate entryId now) } := by
  unfold setPlaying at hr
  split at hr
  · exact absurd hr (by simp)
  · split at hr
    · exact Or.inl (Except.ok.inj hr).symm
    · exact Or.inr (Except.ok.inj hr).symm

theorem setPlayingMapped_preserves (s : PlaylistState) (entryId now : Nat)
    (hwf : WF s) :
    WF { s with entries := s.entries.map (setPlayingUpdate entryId now) } ∧
    atMostOnePlaying
      { s with entries := s.entries.map (setPlayingUpdate entryId now) } := by
  refine ⟨mapEntries_WF s _ (setPlayingUpdate_id entryId now) hwf, ?_⟩
  simp only [atMostOnePlaying, playingCount]
  rw [countP_map_eq]
  rw [List.countP_congr (fun a _ => by rw [setPlayingUpdate_playing])]
  exact countP_fn_le_one Entry.id s.entries hwf.1 entryId

theorem applyOp_preserves (s : PlaylistState) (op : StoreOp)
    (hwf : WF s) (hinv : atMostOnePlaying s) :
    WF (applyOp s op) ∧ atMostOnePlaying (applyOp s op) := by
  cases op with
  | add tid lbl now =>
    by_cases hdup : ∃ e ∈ s.entries, e.trackId = tid
    · have h1 : add s tid lbl now = .error .duplicateTrack := by
        simp only [add, if_pos hdup]
      simp only [applyOp, h1]
      exact ⟨hwf, hinv⟩
    · obtain ⟨k, hk⟩ := calculatePosition_none_ok (lastPosition s)
      have hadd : add s tid lbl now = .ok
          ({ entries := s.entries ++ [⟨s.nextId, tid, k, 0, lbl, false, now, none⟩],
             nextId := s.nextId + 1 },
           ⟨s.nextId, tid, k, 0, lbl, false, now, none⟩) := by
        simp only [add, if_neg hdup, hk]
      simp only [applyOp, hadd]
      obtain ⟨hnd, hbd⟩ := hwf
      refine ⟨⟨?_, ?_⟩, ?_⟩
      · show ((s.entries ++ [_]).map Entry.id).Nodup
        rw [List.map_append]
        refine hnd.append (List.nodup_singleton _) ?_
        intro a ha hb
        rw [List.mem_map] at ha
        obtain ⟨e0, he0, hid⟩ := ha
        have h1 : a = s.nextId := by simpa using hb
        have h2 : e0.id < s.nextId := hbd e0 he0
        omega
      · intro e he
        rcases List.mem_append.mp he with he' | he'
        · have := hbd e he'
          show e.id < s.nextId + 1
          omega
        · have : e = ⟨s.nextId, tid, k, 0, lbl, false, now, none⟩ := by simpa using he'
          rw [this]
          show s.nextId < s.nextId + 1
          omega
      · simp only [atMostOnePlaying, playingCount] at hinv ⊢
        rw [List.countP_append]
        simpa using hinv
  | reorder eid pid nid =>
    cases hr : reorder s eid pid nid with
    | error err =>
      simp only [applyOp, hr]
      exact ⟨hwf, hinv⟩
    | ok s' =>
      simp only [applyOp, hr]
      rcases reorder_ok_form s s' eid pid nid hr with ⟨k, rfl⟩ | ⟨k, rfl⟩
      · exact setPosition_preserves s eid k hwf hinv
      · exact setPosition_preserves (rebalance s) eid k
          (rebalance_WF s hwf) (rebalance_playing s hinv)
  | vote eid dir =>
    by_cases hmem : ∃ e ∈ s.entries, e.id = eid
    · have h1 : vote s eid dir
          = .ok { s with entries := s.entries.map (voteUpdate eid dir) } := by
        simp only [vote, if_pos hmem]
      simp only [applyOp, h1]
      exact ⟨mapEntries_WF s _ (voteUpdate_id eid dir) hwf,
        mapEntries_playing s _ (voteUpdate_playing eid dir) hinv⟩
    · have h1 : vote s eid dir = .error .notFound := by
        simp only [vote, if_neg hmem]
      simp only [applyOp, h1]
      exact ⟨hwf, hinv⟩
  | setPlaying eid now =>
    cases hr : setPlaying s eid now with
    | error err =>
      simp only [applyOp, hr]
      exact ⟨hwf, hinv⟩
    | ok s' =>
      simp only [applyOp, hr]
      rcases setPlaying_ok_form s s' eid now hr with rfl | rfl
      · exact ⟨hwf, hinv⟩
      · exact setPlayingMapped_preserves s eid now hwf
  | remove eid =>
    by_cases hmem : ∃ e ∈ s.entries, e.id = eid
    · have h1 : remove s eid
          = .ok { s with entries := s.entries.filter (fun e => !(e.id == eid)) } := by
        simp only [remove, if_pos hmem]
      simp only [applyOp, h1]
      obtain ⟨hnd, hbd⟩ := hwf
      refine ⟨⟨?_, ?_⟩, ?_⟩
      · show ((s.entries.filter _).map Entry.id).Nodup
        exact ((s.entries.filter_sublist).map Entry.id).nodup hnd
      · intro e he
        exact hbd e (List.mem_filter.mp he).1
      · simp only [atMostOnePlaying, playingCount] at hinv ⊢
        exact le_trans ((s.entries.filter_sublist).countP_le _) hinv
    · have h1 : remove s eid = .error .notFound := by
        simp only [remove, if_neg hmem]
      simp only [applyOp, h1]
      exact ⟨hwf, hinv⟩

theorem applyOps_preserves (ops : List StoreOp) : ∀ s : PlaylistState,
    WF s → atMostOnePlaying s →
    WF (applyOps s ops) ∧ atMostOnePlaying (applyOps s ops) := by
  induction ops with
  | nil => intro s h1 h2; exact ⟨h1, h2⟩
  | cons op ops ih =>
    intro s h1 h2
    obtain ⟨h1', h2'⟩ := applyOp_preserves s op h1 h2
    exact ih (applyOp s op) h1' h2'

theorem setPlaying_ok_only_target (s s1 : PlaylistState) (x nx : Nat)
    (hinv : atMostOnePlaying s) (h : setPlaying s x nx = .ok s1) :
    ∀ e ∈ s1.entries, e.isPlaying = true → e.id = x := by
  unfold setPlaying at h
  cases hfind : findEntry s x with
  | none => rw [hfind] at h; exact absurd h (by simp)
  | some ex =>
    rw [hfind] at h
    replace h : (if ex.isPlaying = true
        then (Except.ok s : Except StoreError PlaylistState)
        else .ok { s with entries := s.entries.map (setPlayingUpdate x nx) })
        = .ok s1 := h
    have hex_mem : ex ∈ s.entries := List.mem_of_find?_eq_some hfind
    have hex_id : ex.id = x := by
      have := List.find?_some hfind
      simpa using this
    by_cases hp : ex.isPlaying = true
    · rw [if_pos hp] at h
      have hs1 : s1 = s := (Except.ok.inj h).symm
      subst hs1
      intro e he hplay
      by_contra hne
      have hne' : e ≠ ex := fun heq => hne (heq ▸ hex_id)
      have h2 := two_le_countP_of_two_mem (fun e => e.isPlaying) s1.entries
        e ex he hex_mem hne' hplay hp
      simp only [atMostOnePlaying, playingCount] at hinv
      omega
    · rw [if_neg hp] at h
      have hs1 : s1 = { s with entries := s.entries.map (setPlayingUpdate x nx) } :=
        (Except.ok.inj h).symm
      subst hs1
      intro e he hplay
      rw [List.mem_map] at he
      obtain ⟨a, ha, rfl⟩ := he
      rw [setPlayingUpdate_playing] at hplay
      rw [setPlayingUpdate_id]
      simpa using hplay

theorem calculatePosition_both_ok {prev next k : Nat}
    (h : calculatePosition (some prev) (some next) = .ok k) :
    prev + 2 ≤ next ∧ k = (prev + next) / 2 := by
  by_cases hc : prev + 2 ≤ next
  · simp only [calculatePosition, if_pos hc, Except.ok.injEq] at h
    exact ⟨hc, h.symm⟩
  · simp only [calculatePosition, if_neg hc] at h
    exact absurd h (by simp)

theorem insertLoop_exhausts (g : Nat) : ∀ prev next : Nat, prev < next →
    next ≤ prev + g → insertLoop prev next g = true := by
  induction g with
  | zero => intro prev next h1 h2; omega
  | succ g ih =>
    intro prev next h1 h2
    unfold insertLoop
    by_cases hc : prev + 2 ≤ next
    · simp only [calculatePosition, if_pos hc]
      exact ih prev ((prev + next) / 2) (by omega) (by omega)
    · simp only [calculatePosition, if_neg hc]

/-! ## Claim theorems -/

/-- C1: with both neighbor keys present, a successful allocation returns
exactly the arithmetic midpoint `(prev+next)/2`, which lies strictly
between `prev` and `next`; and a reorder whose allocation succeeds
directly rewrites only the moved entry's key, leaving every other entry
(including its key) unchanged. -/
theorem allocate_midpoint_strictly_between (prev next k : Nat)
    (h : calculatePosition (some prev) (some next) = .ok k) :
    (k = (prev + next) / 2 ∧ prev < k ∧ k < next) ∧
    (∀ (s : PlaylistState) (entryId : Nat) (newPrevId newNextId : Option Nat)
        (pk nk : Option Nat) (k' : Nat),
      (findEntry s entryId).isSome →
      neighborPosition s newPrevId = .ok pk →
      neighborPosition s newNextId = .ok nk →
      calculatePosition pk nk = .ok k' →
      reorder s entryId newPrevId newNextId = .ok (setPosition s entryId k') ∧
      (setPosition s entryId k').entries.length = s.entries.length ∧
      ∀ e ∈ s.entries, e.id ≠ entryId → e ∈ (setPosition s entryId k').entries) := by
  constructor
  · obtain ⟨hc, hk⟩ := calculatePosition_both_ok h
    exact ⟨hk, by omega, by omega⟩
  · intro s entryId newPrevId newNextId pk nk k' h1 hpk hnk hcalc
    refine ⟨?_, ?_, ?_⟩
    · simp [reorder, h1, hpk, hnk, hcalc]
    · simp [setPosition]
    · intro e he hne
      have hfe : positionUpdate entryId k' e = e := by
        simp [positionUpdate, hne]
      have := List.mem_map_of_mem (positionUpdate entryId k') he
      rw [hfe] at this
      simpa [setPosition] using this

/-- Witness for C1 at `prev = 2`, `next = 10`: the returned key is `6`. -/
theorem allocate_midpoint_strictly_between_witness :
    (6 : Nat) = (2 + 10) / 2 ∧ 2 < 6 ∧ 6 < 10 :=
  (allocate_midpoint_strictly_between 2 10 6 rfl).1

/-- C2: with both neighbors present, the allocator never returns a key
equal to `prev` or `next` or violating the strict order; once the gap
between the neighbors leaves no strictly intermediate key it fails with
`PositionExhausted`; and repeatedly allocating at the same insertion point
reaches `PositionExhausted` within `next - prev` steps. -/
theorem allocate_position_exhausted (prev next : Nat) (h : prev < next) :
    (∀ k, calculatePosition (some prev) (some next) = .ok k →
      prev < k ∧ k < next ∧ k ≠ prev ∧ k ≠ next) ∧
    (next ≤ prev + 1 →
      calculatePosition (some prev) (some next) = .error .positionExhausted) ∧
    insertLoop prev next (next - prev) = true := by
  refine ⟨?_, ?_, ?_⟩
  · intro k hk
    obtain ⟨hc, hmid⟩ := calculatePosition_both_ok hk
    refine ⟨by omega, by omega, by omega, by omega⟩
  · intro hle
    simp only [calculatePosition, if_neg (by omega : ¬ prev + 2 ≤ next)]
  · exact insertLoop_exhausts (next - prev) prev next h (by omega)

/-- Witness for C2 at `prev = 0`, `next = 5`: exhaustion is reached
within 5 repeated insertions. -/
theorem allocate_position_exhausted_witness :
    insertLoop 0 5 (5 - 0) = true :=
  (allocate_position_exhausted 0 5 (by decide)).2.2

/-- C3: `add` of a track already referenced by some entry fails with
`DuplicateTrack` and leaves the playlist state unchanged; `add` of a
track not currently present succeeds and appends exactly one entry. -/
theorem add_duplicate_track (s : PlaylistState) (tid : Nat) (lbl : String) (now : Nat) :
    ((∃ e ∈ s.entries, e.trackId = tid) →
      add s tid lbl now = .error .duplicateTrack ∧
      applyOp s (.add tid lbl now) = s) ∧
    ((¬ ∃ e ∈ s.entries, e.trackId = tid) →
      ∃ s' entry, add s tid lbl now = .ok (s', entry) ∧
        entry.trackId = tid ∧
        s'.entries.length = s.entries.length + 1) := by
  constructor
  · intro hdup
    have h1 : add s tid lbl now = .error .duplicateTrack := by
      simp only [add, if_pos hdup]
    exact ⟨h1, by simp [applyOp, h1]⟩
  · intro hnew
    obtain ⟨k, hk⟩ := calculatePosition_none_ok (lastPosition s)
    have hadd : add s tid lbl now = .ok
        ({ entries := s.entries ++ [⟨s.nextId, tid, k, 0, lbl, false, now, none⟩],
           nextId := s.nextId + 1 },
         ⟨s.nextId, tid, k, 0, lbl, false, now, none⟩) := by
      simp only [add, if_neg hnew, hk]
    exact ⟨_, _, hadd, rfl, by simp⟩

/-- Witness for C3: adding track 7 to the fixture state, which already
holds it, fails with `DuplicateTrack`; adding the absent track 9
succeeds. -/
theorem add_duplicate_track_witness :
    (add sampleState 7 "w" 5 = .error .duplicateTrack ∧
      applyOp sampleState (.add 7 "w" 5) = sampleState) ∧
    ∃ s' entry, add sampleState 9 "w" 5 = .ok (s', entry) ∧
      entry.trackId = 9 ∧
      s'.entries.length = sampleState.entries.length + 1 :=
  ⟨(add_duplicate_track sampleState 7 "w" 5).1 ⟨entryP, by decide, by decide⟩,
   (add_duplicate_track sampleState 9 "w" 5).2 (by decide)⟩

/-- C5: removing a present entry succeeds, decreases the entry count by
exactly one, deletes only that entry and leaves every other entry — all
its fields, its ordering key included — unchanged; removing an absent
entry fails with `NotFound` and changes nothing. -/
theorem remove_decreases_count_by_one (s : PlaylistState) (eid : Nat)
    (hnd : idsNodup s) :
    ((∃ e ∈ s.entries, e.id = eid) →
      ∃ s', remove s eid = .ok s' ∧
        s'.entries.length + 1 = s.entries.length ∧
        (∀ e ∈ s.entries, e.id ≠ eid → e ∈ s'.entries) ∧
        (∀ e ∈ s'.entries, e ∈ s.entries ∧ e.id ≠ eid) ∧
        s'.nextId = s.nextId) ∧
    ((¬ ∃ e ∈ s.entries, e.id = eid) →
      remove s eid = .error .notFound ∧ applyOp s (.remove eid) = s) := by
  constructor
  · intro hmem
    refine ⟨{ s with entries := s.entries.filter (fun e => !(e.id == eid)) },
      by simp only [remove, if_pos hmem], ?_, ?_, ?_, rfl⟩
    · have hle : s.entries.countP (fun e => e.id == eid) ≤ 1 :=
        countP_fn_le_one Entry.id s.entries hnd eid
      have hpos : 0 < s.entries.countP (fun e => e.id == eid) := by
        obtain ⟨e, he, heid⟩ := hmem
        exact List.countP_pos_iff.mpr ⟨e, he, by simp [heid]⟩
      have hsplit := countP_add_countP_not (fun e => e.id == eid) s.entries
      have hflt : (s.entries.filter (fun e => !(e.id == eid))).length
          = s.entries.countP (fun e => !(e.id == eid)) :=
        (List.countP_eq_length_filter _ _).symm
      simp only [hflt]
      omega
    · intro e he hne
      simp [List.mem_filter, he, hne]
    · intro e he
      rw [List.mem_filter] at he
      refine ⟨he.1, ?_⟩
      simpa using he.2
  · intro habs
    have h1 : remove s eid = .error .notFound := by
      simp only [remove, if_neg habs]
    exact ⟨h1, by simp [applyOp, h1]⟩

/-- Witness for C5: removing entry 1 from the fixture state leaves one
entry; removing the absent entry 5 fails with `NotFound`. -/
theorem remove_decreases_count_by_one_witness :
    (∃ s', remove sampleState 1 = .ok s' ∧
      s'.entries.length + 1 = sampleState.entries.length ∧
      (∀ e ∈ sampleState.entries, e.id ≠ 1 → e ∈ s'.entries) ∧
      (∀ e ∈ s'.entries, e ∈ sampleState.entries ∧ e.id ≠ 1) ∧
      s'.nextId = sampleState.nextId) ∧
    (remove sampleState 5 = .error .notFound ∧
      applyOp sampleState (.remove 5) = sampleState) :=
  ⟨(remove_decreases_count_by_one sampleState 1 (by unfold idsNodup; decide)).1
      ⟨entryP, by decide, by decide⟩,
   (remove_decreases_count_by_one sampleState 5 (by unfold idsNodup; decide)).2 (by decide)⟩

/-- C4: every sequence of playlist store operations preserves the
invariant that at most one entry has is-playing = true; `setPlaying(X)`
followed by `setPlaying(Y)` with `X ≠ Y` leaves exactly the entry `Y`
playing (and `X` not playing); and `setPlaying(X)` when `X` is already
playing returns the state unchanged, with no played-at timestamp
change. -/
theorem setPlaying_single_holder (s s1 s2 : PlaylistState) (ops : List StoreOp)
    (x y nx ny : Nat) (hwf : WF s) (hinv : atMostOnePlaying s) :
    atMostOnePlaying (applyOps s ops) ∧
    (setPlaying s x nx = .ok s1 → setPlaying s1 y ny = .ok s2 → x ≠ y →
      ∀ e ∈ s2.entries, (e.isPlaying = true) ↔ e.id = y) ∧
    (∀ e, findEntry s x = some e → e.isPlaying = true →
      setPlaying s x nx = .ok s) := by
  refine ⟨(applyOps_preserves ops s hwf hinv).2, ?_, ?_⟩
  · intro hok1 hok2 hxy
    have honly := setPlaying_ok_only_target s s1 x nx hinv hok1
    unfold setPlaying at hok2
    cases hfind2 : findEntry s1 y with
    | none => rw [hfind2] at hok2; exact absurd hok2 (by simp)
    | some e2 =>
      rw [hfind2] at hok2
      replace hok2 : (if e2.isPlaying = true
          then (Except.ok s1 : Except StoreError PlaylistState)
          else .ok { s1 with entries := s1.entries.map (setPlayingUpdate y ny) })
          = .ok s2 := hok2
      have he2_mem : e2 ∈ s1.entries := List.mem_of_find?_eq_some hfind2
      have he2_id : e2.id = y := by simpa using List.find?_some hfind2
      by_cases hp2 : e2.isPlaying = true
      · have hx : e2.id = x := honly e2 he2_mem hp2
        exact absurd (by omega : x = y) hxy
      · rw [if_neg hp2] at hok2
        have hs2 : s2 = { s1 with entries := s1.entries.map (setPlayingUpdate y ny) } :=
          (Except.ok.inj hok2).symm
        subst hs2
        intro e he
        rw [List.mem_map] at he
        obtain ⟨a, ha, rfl⟩ := he
        rw [setPlayingUpdate_playing, setPlayingUpdate_id]
        simp
  · intro e hfind hp
    have hform : setPlaying s x nx = (if e.isPlaying = true
        then (Except.ok s : Except StoreError PlaylistState)
        else .ok { s with entries := s.entries.map (setPlayingUpdate x nx) }) := by
      unfold setPlaying
      rw [hfind]
    rw [hform, if_pos hp]

/-- Witness for C4 on the fixture state: `setPlaying 1` then
`setPlaying 2` leaves exactly entry 2 playing, and the running of an
operation sequence preserves the invariant. -/
theorem setPlaying_single_holder_witness :
    atMostOnePlaying (applyOps sampleState [.setPlaying 1 5, .setPlaying 2 6]) ∧
    (∀ e ∈ samplePlaying2.entries, (e.isPlaying = true) ↔ e.id = 2) := by
  have h := setPlaying_single_holder sampleState samplePlaying1 samplePlaying2
    [.setPlaying 1 5, .setPlaying 2 6] 1 2 5 6
    ⟨by unfold idsNodup; decide, by unfold idsBounded; decide⟩
    (by unfold atMostOnePlaying playingCount; decide)
  exact ⟨h.1, h.2.1 rfl rfl (by decide)⟩

/-- C6: a reorder drag whose server request fails reverts the local
optimistic state to the server-confirmed `playlist` prop and re-renders
(`onUpdate` fires); the optimistic moved list survives only when the
request succeeds. -/
theorem onDragEnd_reverts_on_failure (playlist localPlaylist : List Item)
    (r : DragEndResult) (d : DragLocation)
    (hd : r.destination = some d) (hne : r.source.index ≠ d.index) :
    (onDragEnd playlist localPlaylist r true).localPlaylist = playlist ∧
    (onDragEnd playlist localPlaylist r true).updated = true ∧
    ((onDragEnd playlist localPlaylist r true).request).isSome = true ∧
    (onDragEnd playlist localPlaylist r false).localPlaylist
      = moveItem localPlaylist r.source.index d.index := by
  refine ⟨?_, ?_, ?_, ?_⟩ <;> simp [onDragEnd, hd, hne]

/-- Witness for C6: a failing drag of index 2 to index 1 on the fixture
list reverts the local state to the prop. -/
theorem onDragEnd_reverts_on_failure_witness :
    (onDragEnd [itemA, itemB] [itemA, itemB]
      { source := ⟨1⟩, destination := some ⟨0⟩ } true).localPlaylist
      = [itemA, itemB] :=
  (onDragEnd_reverts_on_failure [itemA, itemB] [itemA, itemB]
    { source := ⟨1⟩, destination := some ⟨0⟩ } ⟨0⟩ rfl (by decide)).1

/-- C7: the displayed total duration and track count are pure functions
of the current local entry collection — the total duration is the sum of
the entries' track durations and the count is the number of entries —
so whatever local state a drag handler run leaves behind, the derived
values recomputed from it agree with it exactly. -/
theorem derived_values_recomputed (playlist localPlaylist : List Item)
    (r : DragEndResult) (fails : Bool) :
    (∀ l : List Item,
      totalDuration l = (l.map (fun i => i.track.duration_seconds)).sum ∧
      displayedTrackCount l = l.length) ∧
    totalDuration (onDragEnd playlist localPlaylist r fails).localPlaylist
      = ((onDragEnd playlist localPlaylist r fails).localPlaylist.map
          (fun i => i.track.duration_seconds)).sum := by
  have hall : ∀ l : List Item,
      totalDuration l = (l.map (fun i => i.track.duration_seconds)).sum := by
    intro l
    have hgen : ∀ (l : List Item) (a : Nat),
        l.foldl (fun sum item => sum + item.track.duration_seconds) a
          = a + (l.map (fun i => i.track.duration_seconds)).sum := by
      intro l
      induction l with
      | nil => simp
      | cons x xs ih =>
        intro a
        simp only [List.foldl_cons, List.map_cons, List.sum_cons, ih]
        omega
    simpa [totalDuration] using hgen l 0
  exact ⟨fun l => ⟨hall l, rfl⟩, hall _⟩

/-- C9: a neighbor whose ordering key is the falsy number `0` is coerced
to `null` by the `|| null` in `onDragEnd`, so the allocator sees no
neighbor there; in the fixture drag (moving the item at index 2 between
the items with keys 0 and 1) the allocator is invoked with a null `prev`
and returns a key equal to the true previous neighbor's key `0` — not a
key strictly between the true neighbors. -/
theorem onDragEnd_zero_position_coerced_to_null (it : Item) (hp : it.position = 0) :
    positionOrNull (some it.position) = none ∧
    positionOrNull (some it.position) = positionOrNull none ∧
    (onDragEnd [itemA, itemB, itemC] [itemA, itemB, itemC]
        { source := ⟨2⟩, destination := some ⟨1⟩ } false).request
      = some (itemC.id, calculatePosition none (some itemB.position)) ∧
    calculatePosition none (some itemB.position) = .ok itemA.position := by
  refine ⟨by simp [positionOrNull, hp], by simp [positionOrNull, hp], rfl, rfl⟩

/-- Witness for C9 at the fixture item with key 0. -/
theorem onDragEnd_zero_position_coerced_to_null_witness :
    positionOrNull (some itemA.position) = none :=
  (onDragEnd_zero_position_coerced_to_null itemA rfl).1

/-- C10: a drag with no destination, or dropped at its source index,
changes no local state, sends no request and triggers no re-render. -/
theorem onDragEnd_in_place_noop (playlist localPlaylist : List Item)
    (r : DragEndResult) (fails : Bool)
    (h : r.destination = none ∨
      ∃ d, r.destination = some d ∧ r.source.index = d.index) :
    (onDragEnd playlist localPlaylist r fails).localPlaylist = localPlaylist ∧
    (onDragEnd playlist localPlaylist r fails).request = none ∧
    (onDragEnd playlist localPlaylist r fails).updated = false := by
  rcases h with h | ⟨d, hd, hidx⟩
  · refine ⟨?_, ?_, ?_⟩ <;> simp [onDragEnd, h]
  · refine ⟨?_, ?_, ?_⟩ <;> simp [onDragEnd, hd, hidx]

/-- Witness for C10: a destination-less drag is a complete no-op. -/
theorem onDragEnd_in_place_noop_witness :
    (onDragEnd [itemA] [itemA] { source := ⟨0⟩, destination := none } false).localPlaylist
      = [itemA] :=
  (onDragEnd_in_place_noop [itemA] [itemA]
    { source := ⟨0⟩, destination := none } false (Or.inl rfl)).1

theorem rsmRunFails_failed : ∀ (k : Nat) (m : ReconnectionStateMachine),
    m.state = .connecting → m.maxAttempts = m.attempts + k → 0 < k →
    (rsmRunFails m k).state = .failed := by
  intro k
  induction k with
  | zero => intro m _ _ h; omega
  | succ k ih =>
    intro m hs hmax _
    by_cases hk : k = 0
    · subst hk
      have hterm : m.maxAttempts ≤ m.attempts + 1 := by omega
      simp [rsmRunFails, rsmStep, hs, hterm]
    · have hlt : ¬ m.maxAttempts ≤ m.attempts + 1 := by omega
      have hstep : (rsmStep m .attemptFailed).machine
          = { m with state := .connecting, attempts := m.attempts + 1 } := by
        simp [rsmStep, hs, hlt]
      show (rsmRunFails (rsmStep m .attemptFailed).machine k).state = .failed
      rw [hstep]
      exact ih _ rfl (by simp only []; omega) (by omega)

/-- C8: starting a connection attempt round with a fresh retry counter,
`maxAttempts` consecutive failed attempts drive the machine to the
terminal `failed` state; from `failed` no event ever schedules another
automatic attempt; and a deliberate client-initiated close moves any
state to `closed`, which never schedules an attempt either. -/
theorem reconnect_exhaustion_terminal (m : ReconnectionStateMachine)
    (hs : m.state = .connecting) (ha : m.attempts = 0) (hmax : 0 < m.maxAttempts) :
    (rsmRunFails m m.maxAttempts).state = .failed ∧
    (∀ (m' : ReconnectionStateMachine) (e : ConnEvent), m'.state = .failed →
      (rsmStep m' e).schedulesAttempt = false ∧
      (rsmStep m' e).machine.state ≠ .connecting ∧
      (e ≠ .deliberateClose → (rsmStep m' e).machine.state = .failed)) ∧
    (∀ m' : ReconnectionStateMachine,
      (rsmStep m' .deliberateClose).schedulesAttempt = false ∧
      (rsmStep m' .deliberateClose).machine.state = .closed) ∧
    (∀ (m' : ReconnectionStateMachine) (e : ConnEvent), m'.state = .closed →
      (rsmStep m' e).schedulesAttempt = false ∧
      (rsmStep m' e).machine.state = .closed) := by
  refine ⟨rsmRunFails_failed m.maxAttempts m hs (by omega) hmax, ?_, ?_, ?_⟩
  · intro m' e he
    cases e <;> simp [rsmStep, he]
  · intro m'
    simp [rsmStep]
  · intro m' e he
    cases e <;> simp [rsmStep, he]

/-- Witness for C8: three consecutive failures with `maxAttempts = 3`
reach the terminal `failed` state. -/
theorem reconnect_exhaustion_terminal_witness :
    (rsmRunFails { state := .connecting, attempts := 0, maxAttempts := 3 } 3).state
      = .failed :=
  (reconnect_exhaustion_terminal
    { state := .connecting, attempts := 0, maxAttempts := 3 } rfl rfl (by decide)).1

end RCPM
